import Mathlib

/-!
Verification development for the MergeRiskAI retrieval-and-generation
pipeline.  The Python sources under src/ are shallowly embedded: pure
functions become Lean functions, the vector store becomes explicit state
passing over a client-state type, and the external transport boundary of
the generation capability becomes an inductive describing the possible
transport outcomes.  External library behaviour that the repository only
delegates to (the langchain text splitter, the Chroma client) is modelled
from the specification and marked as such in the doc comments.
-/

namespace MergeRiskAI

/-- Configuration constant CHUNK_SIZE from src/config.py line 26: target chunk size in characters. -/
def CHUNK_SIZE : Nat := 1000

/-- Configuration constant CHUNK_OVERLAP from src/config.py line 27: overlap between consecutive chunks. -/
def CHUNK_OVERLAP : Nat := 200

/-- Configuration constant TOP_K_RESULTS from src/config.py line 35. -/
def TOP_K_RESULTS : Nat := 5

/-- Model of a Python value as it can appear in a metadata mapping.
Floating-point values are carried opaquely through a tag (the code under
study only ever inspects their type, never computes with them). -/
inductive PyVal where
  | str (s : String)
  | int (n : Int)
  | float (tag : Nat)
  | bool (b : Bool)
  | pylist (l : List PyVal)
  | pydict (d : List (String × PyVal))
  | pynone

/-- Model of the Python test isinstance(v, (str, int, float, bool)) used at
src/utils/document_processor.py line 116. -/
def PyVal.isPrimitive : PyVal → Bool
  | .str _ => true
  | .int _ => true
  | .float _ => true
  | .bool _ => true
  | _ => false

/-- Python dict lookup over an insertion-ordered association list (Python
dicts preserve insertion order and have unique keys). -/
def dget {α : Type} (d : List (String × α)) (k : String) : Option α :=
  match d with
  | [] => none
  | (k', v) :: rest => if k' = k then some v else dget rest k

/-- Python dict update: a dict-literal with double-star unpacking keeps the
position of an overwritten key and appends a genuinely new key at the end. -/
def dset {α : Type} (d : List (String × α)) (k : String) (v : α) : List (String × α) :=
  if d.any (fun kv => kv.1 = k) then
    d.map (fun kv => if kv.1 = k then (k, v) else kv)
  else d ++ [(k, v)]

/-- Model of a langchain Document as constructed by split_into_chunks:
a chunk text plus its metadata mapping. -/
structure Document where
  page_content : String
  metadata : List (String × PyVal)

/-- Boolean test that the first character list is an initial segment of the second. -/
def lstartsWith : List Char → List Char → Bool
  | [], _ => true
  | _ :: _, [] => false
  | a :: as, b :: bs => if a = b then lstartsWith as bs else false

/-- Modelled from the spec: one pass of the layered separator strategy of the
Chunker.  Splits the text at every occurrence of the separator, keeping the
separator attached to the piece it ends, so that splitting is lossless.  The
fuel argument (instantiated with the text length) only makes the recursion
structural; it is never exhausted on the instances used.  The actual splitter
is langchain RecursiveCharacterTextSplitter, external library code that is
not part of this repository. -/
def splitKeepAux (sep : List Char) : Nat → List Char → List Char → List (List Char)
  | _, acc, [] => [acc.reverse]
  | 0, acc, cs => [acc.reverse ++ cs]
  | fuel + 1, acc, c :: cs =>
    if sep ≠ [] ∧ lstartsWith sep (c :: cs) = true then
      (acc.reverse ++ sep) :: splitKeepAux sep fuel [] ((c :: cs).drop sep.length)
    else
      splitKeepAux sep fuel (c :: acc) cs

/-- Lossless split of a text at a separator, separator kept on each piece. -/
def splitKeep (sep text : List Char) : List (List Char) :=
  splitKeepAux sep text.length [] text

/-- Modelled from the spec: the final fallback of the separator strategy is
the hard character cut at the target size.  The fuel argument makes the
recursion structural and is never exhausted on the instances used. -/
def hardCutAux : Nat → List Char → List (List Char)
  | _, [] => []
  | 0, text => [text]
  | fuel + 1, text =>
    if text.length ≤ CHUNK_SIZE then [text]
    else text.take CHUNK_SIZE :: hardCutAux fuel (text.drop CHUNK_SIZE)

/-- Hard character cut of an oversize piece into target-size pieces. -/
def hardCut (text : List Char) : List (List Char) := hardCutAux text.length text

/-- Modelled from the spec: one layer of the separator hierarchy.  Split at
the given separator, discard empty pieces, keep a piece within the target
size as an atomic unit and send an oversize piece to the next finer layer. -/
def levelSplit (sep : List Char) (next : List Char → List (List Char))
    (text : List Char) : List (List Char) :=
  ((splitKeep sep text).filter (fun p => p ≠ [])).flatMap
    (fun p => if p.length ≤ CHUNK_SIZE then [p] else next p)

/-- Finest separator layer: the single space, falling back to hard cuts. -/
def unitsAtSpace : List Char → List (List Char) := levelSplit [' '] hardCut

/-- Sentence layer: period followed by space. -/
def unitsAtPeriod : List Char → List (List Char) := levelSplit ['.', ' '] unitsAtSpace

/-- Line layer: single line break. -/
def unitsAtNewline : List Char → List (List Char) := levelSplit ['\n'] unitsAtPeriod

/-- Paragraph layer, the top of the separator hierarchy of
src/utils/document_processor.py line 23. -/
def unitsAtPara : List Char → List (List Char) := levelSplit ['\n', '\n'] unitsAtNewline

/-- Modelled from the spec: greedily gather units into one chunk while the
chunk stays within the target size. -/
def takeFit (acc : List Char) : List (List Char) → List Char × List (List Char)
  | [] => (acc, [])
  | u :: us =>
    if acc.length + u.length ≤ CHUNK_SIZE then takeFit (acc ++ u) us
    else (acc, u :: us)

/-- Modelled from the spec: assemble units into overlapping chunks, seeding
each chunk after the first with the trailing overlap span of its
predecessor.  The fuel argument makes the recursion structural and is never
exhausted on the instances used. -/
def mergeUnitsAux : Nat → List Char → List (List Char) → List (List Char)
  | _, _, [] => []
  | 0, seed, u :: us => [seed ++ u ++ us.flatten]
  | fuel + 1, seed, u :: us =>
    if (takeFit (seed ++ u) us).2 = [] then [(takeFit (seed ++ u) us).1]
    else
      (takeFit (seed ++ u) us).1 ::
        mergeUnitsAux fuel
          ((takeFit (seed ++ u) us).1.drop ((takeFit (seed ++ u) us).1.length - CHUNK_OVERLAP))
          (takeFit (seed ++ u) us).2

/-- Chunk assembly over a unit list. -/
def mergeUnits (seed : List Char) (us : List (List Char)) : List (List Char) :=
  mergeUnitsAux us.length seed us

/-- Modelled from the spec: the Chunker's split operation, the layered
separator strategy with target size and overlap applied by
RecursiveCharacterTextSplitter (external langchain code). -/
def split_text (text : String) : List String :=
  (mergeUnits [] (unitsAtPara text.data)).map String.mk

/-- Translation of DocumentProcessor.split_into_chunks
(src/utils/document_processor.py lines 105-128): split the text, keep only
the primitive-typed metadata entries, and tag each chunk with its zero-based
sequence index under the chunk_index key. -/
def DocumentProcessor.split_into_chunks (text : String)
    (metadata : List (String × PyVal)) : List Document :=
  let chunks := split_text text
  let clean_metadata := metadata.filter (fun kv => kv.2.isPrimitive)
  chunks.enum.map
    (fun ic => { page_content := ic.2, metadata := dset clean_metadata "chunk_index" (.int ic.1) })

/-- State of the Chroma persistent client as the code under study observes
it: the contents of the tax_documents collection, or none when the
collection does not exist in the backing store.  The exception path of a
backing-store access is modelled by the absent-collection state. -/
structure ChromaClient where
  collection : Option (List Document)

/-- Modelled from the spec: constructing a langchain Chroma vector store
under a collection name gets or creates that collection (external library
behaviour, not repository code). -/
def chromaGetOrCreate (s : ChromaClient) : ChromaClient :=
  { collection := some (s.collection.getD []) }

/-- Modelled from the spec: chromadb delete_collection removes the named
collection and raises when it does not exist (external library behaviour). -/
def chromaDeleteCollection (s : ChromaClient) : Except String ChromaClient :=
  match s.collection with
  | none => .error "Collection tax_documents does not exist."
  | some _ => .ok { collection := none }

/-- Translation of VectorStoreManager.clear_collection
(src/utils/vector_store.py lines 84-97): delete the collection, then
recreate an empty one under the same name; any failure is logged and
re-raised. -/
def VectorStoreManager.clear_collection (s : ChromaClient) : Except String ChromaClient :=
  match chromaDeleteCollection s with
  | .error e => .error e
  | .ok s1 => .ok (chromaGetOrCreate s1)

/-- Translation of VectorStoreManager.get_collection_count
(src/utils/vector_store.py lines 99-107): return the stored count; when the
backing-store access raises (modelled by the absent collection), log and
return 0.  The result type is the integers, as in Python. -/
def VectorStoreManager.get_collection_count (s : ChromaClient) : Int :=
  match s.collection with
  | some docs => (docs.length : Int)
  | none => 0

/-- Embedding vectors; their contents are opaque to the claims under study. -/
def Emb : Type := List Int

/-- Modelled from the spec: langchain Chroma.add_documents (external code)
runs the embedding function over the whole batch before committing anything
to the store, then persists every document under a fresh id; an embedding
failure therefore aborts the call before any write reaches the store. -/
def chromaAddDocuments (embed : String → Except String Emb) (s : ChromaClient)
    (documents : List Document) : Except String (ChromaClient × List String) :=
  match documents.mapM (fun d => embed d.page_content) with
  | .error e => .error e
  | .ok _ =>
    match s.collection with
    | none => .error "Collection tax_documents does not exist."
    | some stored =>
      .ok ({ collection := some (stored ++ documents) },
        (List.range documents.length).map (fun j => toString (stored.length + j)))

/-- Translation of VectorStoreManager.add_documents
(src/utils/vector_store.py lines 63-72): delegate to the store's
add_documents; any failure is logged and re-raised. -/
def VectorStoreManager.add_documents (embed : String → Except String Emb)
    (s : ChromaClient) (documents : List Document) :
    Except String (ChromaClient × List String) :=
  chromaAddDocuments embed s documents

/-- Stable insertion into a similarity-sorted list: the inserted document
overtakes only strictly less similar ones, so ties keep insertion order. -/
def insertBySim (sim : Document → Int) (d : Document) : List Document → List Document
  | [] => [d]
  | x :: xs => if sim d > sim x then d :: x :: xs else x :: insertBySim sim d xs

/-- Stable sort of the stored documents by decreasing similarity. -/
def sortBySim (sim : Document → Int) : List Document → List Document
  | [] => []
  | x :: xs => insertBySim sim x (sortBySim sim xs)

/-- Modelled from the spec: Chroma similarity search (external code) embeds
the query and returns the k nearest stored documents by decreasing
similarity; on an empty collection it returns an empty result rather than
raising. -/
def chromaSimilaritySearch (sim : String → Document → Int) (s : ChromaClient)
    (query : String) (k : Nat) : Except String (List Document) :=
  match s.collection with
  | none => .error "Collection tax_documents does not exist."
  | some docs => .ok ((sortBySim (sim query) docs).take k)

/-- Translation of VectorStoreManager.similarity_search
(src/utils/vector_store.py lines 74-82): delegate to the store's search;
any failure is logged and re-raised. -/
def VectorStoreManager.similarity_search (sim : String → Document → Int)
    (s : ChromaClient) (query : String) (k : Nat) : Except String (List Document) :=
  chromaSimilaritySearch sim s query k

/-- Outcome of the HTTP transport for one Groq chat-completion request, as
observed by GroqHTTP._call (src/utils/rag_engine.py lines 23-57): either a
response with a status code, a raw body text and the result of extracting
choices 0 message content from the parsed JSON (an error value models the
KeyError or IndexError raised on a malformed response), or a raised
requests.exceptions.RequestException (timeout, connection failure). -/
inductive TransportOutcome where
  | response (status : Nat) (body : String) (parse : Except String String)
  | requestException (msg : String)

/-- Translation of GroqHTTP._call (src/utils/rag_engine.py lines 23-57):
non-200 statuses, request exceptions and malformed responses are caught and
converted into marked error strings; a well-formed 200 response yields the
message content. -/
def GroqHTTP.call : TransportOutcome → String
  | .requestException e => "Request failed: " ++ e
  | .response status body parse =>
    if status ≠ 200 then "API Error: " ++ toString status ++ " - " ++ body
    else
      match parse with
      | .ok content => content
      | .error e => "Invalid response: " ++ e

/-- One execution of the RetrievalQA chain for one question: either an
exception raised before the language-model call completes (embedding or
retrieval failure inside the chain), or the chain reaches the model with the
retrieved source documents and the given transport outcome. -/
inductive ChainRun where
  | preLLMFailure (msg : String)
  | reachedLLM (docs : List Document) (transport : TransportOutcome)

/-- The qa_chain invocation inside RAGEngine.query: on a pre-model failure
the exception propagates (error case); otherwise the chain returns the
result string produced by GroqHTTP._call together with the source
documents. -/
def qa_chain : ChainRun → Except String (String × List Document)
  | .preLLMFailure m => .error m
  | .reachedLLM docs t => .ok (GroqHTTP.call t, docs)

/-- One entry of the sources list of a query response
(src/utils/rag_engine.py lines 119-125). -/
structure SourceEntry where
  content : String
  metadata : List (String × PyVal)

/-- Python string slicing s[:n]. -/
def pytake (s : String) (n : Nat) : String := String.mk (s.data.take n)

/-- Source-entry construction from a retrieved document
(src/utils/rag_engine.py lines 120-123): contents longer than 300
characters are truncated to 300 characters with an ellipsis marker. -/
def mkSource (d : Document) : SourceEntry :=
  { content :=
      if d.page_content.length > 300 then pytake d.page_content 300 ++ "..."
      else d.page_content,
    metadata := d.metadata }

/-- The response dictionary of RAGEngine.query, with its two keys answer and
sources. -/
structure QueryResponse where
  answer : String
  sources : List SourceEntry

/-- The early-return answer of RAGEngine.query when the API key is unset
(src/utils/rag_engine.py lines 109-113). -/
def keyMissingAnswer : String :=
  "⚠️ Groq API key not configured. Set GROQ_API_KEY in .env file."

/-- The body of RAGEngine.query after the API-key check
(src/utils/rag_engine.py lines 115-136): run the chain, package answer and
truncated sources on success, and convert any raised exception into a
marked error answer with an empty sources list. -/
def RAGEngine.query_main (run : ChainRun) : QueryResponse :=
  match qa_chain run with
  | .ok (res, docs) => { answer := res, sources := docs.map mkSource }
  | .error e => { answer := "❌ Error: " ++ e, sources := [] }

/-- Translation of RAGEngine.query (src/utils/rag_engine.py lines 104-136).
The module-level GROQ_API_KEY string is passed explicitly. -/
def RAGEngine.query (key : String) (run : ChainRun) : QueryResponse :=
  if key = "" then { answer := keyMissingAnswer, sources := [] }
  else RAGEngine.query_main run

/-- Value type of the response dictionary of RAGEngine.query. -/
inductive RespVal where
  | str (s : String)
  | sources (l : List SourceEntry)

/-- The response of RAGEngine.query viewed as the Python dictionary the
function literally builds: exactly the keys answer and sources, in that
order. -/
def RAGEngine.query_dict (key : String) (run : ChainRun) : List (String × RespVal) :=
  [("answer", RespVal.str (RAGEngine.query key run).answer),
   ("sources", RespVal.sources (RAGEngine.query key run).sources)]

/-- The underlying failure description of a chain run, when the run fails:
the exception text of a pre-model failure, the status and body of a non-200
response, the exception text of a request failure, or the missing-field
description of a malformed response. -/
def failureMsg : ChainRun → Option String
  | .preLLMFailure m => some m
  | .reachedLLM _ (.requestException e) => some e
  | .reachedLLM _ (.response status body parse) =>
    if status ≠ 200 then some (toString status ++ " - " ++ body)
    else
      match parse with
      | .error e => some e
      | .ok _ => none

/-- The error markers that can begin a failure answer: the query-boundary
marker and the three transport markers of GroqHTTP._call. -/
def errorMarkers : List String :=
  ["❌ Error: ", "API Error: ", "Request failed: ", "Invalid response: "]

/-- Translation of the API-key check of RAGEngine.__init__
(src/utils/rag_engine.py lines 62-70): an unset or empty GROQ_API_KEY (both
collapse to the empty string, since os.getenv defaults to the empty string)
raises ValueError; otherwise construction continues with the remaining
initialisation, whose own outcome is passed in. -/
def RAGEngine.construct (key : String) (rest : Except String Unit) : Except String Unit :=
  if key = "" then .error "GROQ_API_KEY not configured in .env file" else rest

/-- One question/answer slot of the analysis report
(src/utils/tax_analyzer.py lines 70-75). -/
structure Slot where
  question : String
  answer : String
  sources : List SourceEntry

/-- The inner question loop of TaxAnalyzer.analyze_document
(src/utils/tax_analyzer.py lines 69-75): one slot is appended per question,
built from that question's own query response. -/
def section_loop (rag : String → QueryResponse) : List String → List Slot → List Slot
  | [], acc => acc
  | q :: qs, acc =>
    section_loop rag qs
      (acc ++ [{ question := q, answer := (rag q).answer, sources := (rag q).sources }])

/-- The outer section loop of TaxAnalyzer.analyze_document
(src/utils/tax_analyzer.py lines 65-77): one report entry is appended per
section, in dict insertion order. -/
def analyze_loop (rag : String → QueryResponse) :
    List (String × List String) → List (String × List Slot) → List (String × List Slot)
  | [], report => report
  | sq :: rest, report =>
    analyze_loop rag rest (report ++ [(sq.1, section_loop rag sq.2 [])])

/-- The fixed battery of analysis questions of TaxAnalyzer.analyze_document
(src/utils/tax_analyzer.py lines 22-61), in dict insertion order. -/
def analysis_sections : List (String × List String) :=
  [("audit_outcomes",
    ["What are the tax audit outcomes and indicators mentioned?",
     "Are there any hard labels or historical audit findings?",
     "What is the audit risk score?"]),
   ("business_analysis",
    ["What is the effective tax rate mentioned?",
     "What are the tax-adjusted returns or IRR mentioned?",
     "What scenarios are analyzed (base case, P75, P90, P95)?",
     "What are the key tax metrics and financial figures?"]),
   ("escalation_flags",
    ["What are the critical tax escalation flags or risk drivers?",
     "Are there any material tax issues requiring partner attention?"]),
   ("executive_summary",
    ["Provide a comprehensive executive summary of the key tax takeaways",
     "What are the main tax risks and opportunities?",
     "What are the quantified risk insights?"]),
   ("balance_sheet",
    ["What balance sheet and tax metrics are mentioned?",
     "What tax liabilities or assets are disclosed?"]),
   ("transaction_structure",
    ["What is the transaction structure (merger, acquisition, deal type)?",
     "What jurisdictions are involved?"]),
   ("investment_analysis",
    ["What is the share class IRR or tax-adjusted IRR?",
     "What investment recommendations are provided?",
     "What are the reserve recommendations?"]),
   ("tax_contingencies",
    ["What tax contingencies or reserves are mentioned?",
     "What is the expected tax contingency distribution (P50, P75, P90, P95)?",
     "What methodologies are used (Log-Normal, Conservative, Triangular)?"])]

/-- Translation of TaxAnalyzer.analyze_document (src/utils/tax_analyzer.py
lines 16-80): run the fixed question battery through RAGEngine.query, whose
per-question behaviour is determined by the API key and by the chain run
each question leads to. -/
def TaxAnalyzer.analyze_document (key : String) (oracle : String → ChainRun) :
    List (String × List Slot) :=
  analyze_loop (fun q => RAGEngine.query key (oracle q)) analysis_sections []

/-- The canonical section titles of generate_summary_report
(src/utils/tax_analyzer.py lines 87-96), in dict insertion order. -/
def section_titles : List (String × String) :=
  [("audit_outcomes", "🔍 Tax Audit Outcomes & Indicators"),
   ("business_analysis", "📊 Business Analysis for VC/PE"),
   ("escalation_flags", "⚠️ Escalation Flags & Risk Drivers"),
   ("executive_summary", "📋 Executive Summary & Key Takeaways"),
   ("balance_sheet", "💰 Balance Sheet & Tax Metrics"),
   ("transaction_structure", "🤝 Transaction Structure"),
   ("investment_analysis", "📈 Integrated Investment Analysis"),
   ("tax_contingencies", "💼 Tax Contingency Distribution")]

/-- The numbered source lines of one answer in the summary report
(src/utils/tax_analyzer.py lines 108-109): each shown content excerpt is
cut to 150 characters, followed by an ellipsis marker. -/
def srcLines : Nat → List SourceEntry → String
  | _, [] => ""
  | idx, s :: rest =>
    "- Source " ++ toString idx ++ ": " ++ pytake s.content 150 ++ "...\n" ++
      srcLines (idx + 1) rest

/-- The report text contributed by one question/answer item
(src/utils/tax_analyzer.py lines 102-110): the question, the answer, and,
when the item has sources, a sources block showing at most the first two. -/
def render_item (item : Slot) : String :=
  "**Q: " ++ item.question ++ "**\n\n" ++ item.answer ++ "\n\n" ++
    (if item.sources.isEmpty then ""
     else "_Sources:_\n" ++ srcLines 1 (item.sources.take 2) ++ "\n")

/-- Translation of TaxAnalyzer.generate_summary_report
(src/utils/tax_analyzer.py lines 82-114): starting from the top-level
title, fold over the canonical section order, appending the section
heading, then the section's items when the section is present in the
analysis, then the horizontal-rule marker. -/
def TaxAnalyzer.generate_summary_report (analysis : List (String × List Slot)) : String :=
  section_titles.foldl
    (fun report st =>
      (match dget analysis st.1 with
        | some items =>
          items.foldl (fun r item => r ++ render_item item)
            (report ++ "\n## " ++ st.2 ++ "\n\n")
        | none => report ++ "\n## " ++ st.2 ++ "\n\n") ++ "---\n")
    "# M&A TAX RISK ASSESSMENT REPORT\n\n"

/-- Concatenation of a list of strings. -/
def sjoin : List String → String
  | [] => ""
  | s :: rest => s ++ sjoin rest

/-- Rendering of one section as the specification words it: the
second-level heading, then every question/answer item of the section (or
nothing when the section is absent), then the horizontal-rule marker. -/
def spec_render_section (analysis : List (String × List Slot)) (st : String × String) : String :=
  "\n## " ++ st.2 ++ "\n\n" ++ sjoin (((dget analysis st.1).getD []).map render_item) ++ "---\n"

/-- Rendering of a whole report as the specification words it: the
top-level title followed by each canonical section in its fixed order. -/
def spec_render (analysis : List (String × List Slot)) : String :=
  "# M&A TAX RISK ASSESSMENT REPORT\n\n" ++
    sjoin (section_titles.map (spec_render_section analysis))

theorem lstartsWith_append_drop :
    ∀ (p t : List Char), lstartsWith p t = true → p ++ t.drop p.length = t
  | [], t, _ => by simp
  | a :: as, [], h => by simp [lstartsWith] at h
  | a :: as, b :: bs, h => by
    simp only [lstartsWith] at h
    by_cases hab : a = b
    · subst hab
      rw [if_pos rfl] at h
      have ih := lstartsWith_append_drop as bs h
      simpa [List.length_cons, List.drop_succ_cons] using ih
    · rw [if_neg hab] at h
      exact absurd h (by simp)

theorem splitKeepAux_flatten (sep : List Char) :
    ∀ (fuel : Nat) (acc cs : List Char), cs.length ≤ fuel →
      (splitKeepAux sep fuel acc cs).flatten = acc.reverse ++ cs := by
  intro fuel
  induction fuel with
  | zero =>
    intro acc cs h
    have hnil : cs = [] := List.eq_nil_of_length_eq_zero (Nat.le_zero.mp h)
    subst hnil
    simp [splitKeepAux]
  | succ fuel ih =>
    intro acc cs h
    match cs with
    | [] => simp [splitKeepAux]
    | c :: cs' =>
      simp only [splitKeepAux]
      by_cases hcond : sep ≠ [] ∧ lstartsWith sep (c :: cs') = true
      · rw [if_pos hcond, List.flatten_cons]
        have hseplen : 0 < sep.length := List.length_pos.mpr hcond.1
        have hlen : ((c :: cs').drop sep.length).length ≤ fuel := by
          rw [List.length_drop, List.length_cons]
          simp only [List.length_cons] at h
          omega
        rw [ih [] _ hlen]
        simp only [List.reverse_nil, List.nil_append]
        rw [List.append_assoc]
        congr 1
        exact lstartsWith_append_drop sep (c :: cs') hcond.2
      · rw [if_neg hcond]
        have hlen : cs'.length ≤ fuel := by
          simp only [List.length_cons] at h
          omega
        rw [ih (c :: acc) cs' hlen]
        simp

theorem splitKeep_flatten (sep t : List Char) : (splitKeep sep t).flatten = t := by
  simpa [splitKeep] using splitKeepAux_flatten sep t.length [] t (le_refl _)

theorem flatten_filter_ne_nil (l : List (List Char)) :
    (l.filter (fun p => p ≠ [])).flatten = l.flatten := by
  induction l with
  | nil => rfl
  | cons p rest ih =>
    rw [List.filter_cons]
    by_cases hp : p = []
    · rw [if_neg (by simp [hp]), ih, List.flatten_cons, hp, List.nil_append]
    · rw [if_pos (by simp [hp]), List.flatten_cons, List.flatten_cons, ih]

theorem length_le_flatten {p : List Char} {l : List (List Char)} (h : p ∈ l) :
    p.length ≤ l.flatten.length := by
  induction l with
  | nil => cases h
  | cons q rest ih =>
    rw [List.flatten_cons, List.length_append]
    rcases List.mem_cons.mp h with rfl | hmem
    · omega
    · have := ih hmem
      omega

theorem flatMap_singleton_of {l : List (List Char)} {f : List Char → List (List Char)}
    (h : ∀ p ∈ l, f p = [p]) : l.flatMap f = l := by
  induction l with
  | nil => rfl
  | cons p rest ih =>
    rw [List.flatMap_cons, h p (List.mem_cons_self p rest),
      ih (fun q hq => h q (List.mem_cons_of_mem p hq))]
    rfl

theorem levelSplit_small (sep : List Char) (next : List Char → List (List Char))
    (text : List Char) (h : text.length ≤ CHUNK_SIZE) :
    levelSplit sep next text = (splitKeep sep text).filter (fun p => p ≠ []) := by
  unfold levelSplit
  apply flatMap_singleton_of
  intro p hp
  have hmem : p ∈ splitKeep sep text := List.mem_of_mem_filter hp
  have hle : p.length ≤ text.length := by
    have hlen := length_le_flatten hmem
    rwa [splitKeep_flatten] at hlen
  rw [if_pos (le_trans hle h)]

theorem takeFit_all (acc : List Char) (us : List (List Char))
    (h : acc.length + us.flatten.length ≤ CHUNK_SIZE) :
    takeFit acc us = (acc ++ us.flatten, []) := by
  induction us generalizing acc with
  | nil => simp [takeFit]
  | cons u rest ih =>
    rw [List.flatten_cons, List.length_append] at h
    simp only [takeFit]
    have h1 : acc.length + u.length ≤ CHUNK_SIZE := by omega
    rw [if_pos h1, ih (acc ++ u) (by rw [List.length_append]; omega)]
    rw [List.flatten_cons, List.append_assoc]

theorem mergeUnits_single (u : List Char) (us : List (List Char))
    (h : (u :: us).flatten.length ≤ CHUNK_SIZE) :
    mergeUnits [] (u :: us) = [(u :: us).flatten] := by
  have hfit : (([] : List Char) ++ u).length + us.flatten.length ≤ CHUNK_SIZE := by
    rw [List.flatten_cons, List.length_append] at h
    simpa using h
  have ht := takeFit_all ([] ++ u) us hfit
  unfold mergeUnits
  simp only [List.length_cons, mergeUnitsAux, ht]
  simp [List.flatten_cons]

/-- Claim C7: the Chunker's split operation applied to the empty string
yields an empty chunk sequence without error, and for every non-empty text
shorter than the configured target chunk size (1000 characters) it yields
exactly one chunk whose text equals the whole input text. -/
theorem split_text_edge_cases :
    split_text "" = [] ∧
    ∀ s : String, s ≠ "" → s.length < CHUNK_SIZE → split_text s = [s] := by
  constructor
  · rfl
  · intro s hne hlen
    have hdata : s.data ≠ [] := by
      intro h0
      exact hne (by cases s; simp_all)
    have hle : s.data.length ≤ CHUNK_SIZE := le_of_lt hlen
    unfold split_text unitsAtPara
    rw [levelSplit_small _ _ _ hle]
    have hflat : ((splitKeep ['\n', '\n'] s.data).filter (fun p => p ≠ [])).flatten = s.data := by
      rw [flatten_filter_ne_nil, splitKeep_flatten]
    obtain ⟨u, us, hcons⟩ :=
      List.exists_cons_of_ne_nil
        (show (splitKeep ['\n', '\n'] s.data).filter (fun p => p ≠ []) ≠ [] by
          intro h0
          rw [h0] at hflat
          exact hdata hflat.symm)
    rw [hcons]
    rw [hcons] at hflat
    rw [mergeUnits_single u us (by rw [hflat]; exact hle), hflat]
    rfl

/-- Witness for C7 at concrete inputs. -/
theorem split_text_edge_cases_witness :
    split_text "" = [] ∧ split_text "ab cd" = ["ab cd"] :=
  ⟨split_text_edge_cases.1, split_text_edge_cases.2 "ab cd" (by decide) (by decide)⟩

theorem dget_map_set_same {α : Type} (d : List (String × α)) (k : String) (v : α)
    (h : d.any (fun kv => kv.1 = k) = true) :
    dget (d.map (fun kv => if kv.1 = k then (k, v) else kv)) k = some v := by
  induction d with
  | nil => simp at h
  | cons e rest ih =>
    rw [List.map_cons]
    by_cases he : e.1 = k
    · rw [if_pos he]
      simp [dget]
    · rw [if_neg he]
      rw [List.any_cons] at h
      simp only [dget, if_neg he]
      refine ih ?_
      cases hor : rest.any (fun kv => kv.1 = k) with
      | true => rfl
      | false =>
        rw [hor] at h
        simp [he] at h

theorem dget_map_set_other {α : Type} (d : List (String × α)) (k k' : String) (v : α)
    (hne : k' ≠ k) :
    dget (d.map (fun kv => if kv.1 = k then (k, v) else kv)) k' = dget d k' := by
  induction d with
  | nil => rfl
  | cons e rest ih =>
    rw [List.map_cons]
    by_cases he : e.1 = k
    · rw [if_pos he]
      simp only [dget]
      rw [if_neg (fun hk => hne hk.symm), if_neg (fun h0 => hne (he ▸ h0).symm), ih]
    · rw [if_neg he]
      simp only [dget]
      by_cases h0 : e.1 = k'
      · rw [if_pos h0, if_pos h0]
      · rw [if_neg h0, if_neg h0, ih]

theorem dget_append_single_same {α : Type} (d : List (String × α)) (k : String) (v : α)
    (h : d.any (fun kv => kv.1 = k) = false) :
    dget (d ++ [(k, v)]) k = some v := by
  induction d with
  | nil => simp [dget]
  | cons e rest ih =>
    rw [List.any_cons] at h
    simp only [List.cons_append, dget]
    have he : ¬(e.1 = k) := by
      intro he
      rw [he] at h
      simp at h
    rw [if_neg he]
    refine ih ?_
    cases hor : rest.any (fun kv => kv.1 = k) with
    | false => rfl
    | true =>
      rw [hor] at h
      simp at h

theorem dget_append_single_other {α : Type} (d : List (String × α)) (k k' : String) (v : α)
    (hne : k' ≠ k) : dget (d ++ [(k, v)]) k' = dget d k' := by
  induction d with
  | nil =>
    simp only [List.nil_append, dget]
    rw [if_neg (fun h => hne h.symm)]
  | cons e rest ih =>
    simp only [List.cons_append, List.append_eq, dget]
    by_cases h0 : e.1 = k'
    · rw [if_pos h0, if_pos h0]
    · rw [if_neg h0, if_neg h0]
      exact ih

theorem dget_dset_same {α : Type} (d : List (String × α)) (k : String) (v : α) :
    dget (dset d k v) k = some v := by
  unfold dset
  cases h : d.any (fun kv => kv.1 = k) with
  | true =>
    rw [if_pos rfl]
    exact dget_map_set_same d k v h
  | false =>
    rw [if_neg Bool.false_ne_true]
    exact dget_append_single_same d k v h

theorem dget_dset_other {α : Type} (d : List (String × α)) (k k' : String) (v : α)
    (hne : k' ≠ k) : dget (dset d k v) k' = dget d k' := by
  unfold dset
  cases h : d.any (fun kv => kv.1 = k) with
  | true =>
    rw [if_pos rfl]
    exact dget_map_set_other d k k' v hne
  | false =>
    rw [if_neg Bool.false_ne_true]
    exact dget_append_single_other d k k' v hne

theorem dget_eq_none {α : Type} (d : List (String × α)) (k : String)
    (h : ∀ e ∈ d, e.1 ≠ k) : dget d k = none := by
  induction d with
  | nil => rfl
  | cons e rest ih =>
    simp only [dget]
    rw [if_neg (h e (List.mem_cons_self e rest))]
    exact ih (fun e' he' => h e' (List.mem_cons_of_mem e he'))

theorem dget_filter_primitive (metadata : List (String × PyVal)) (k : String)
    (hnodup : (metadata.map Prod.fst).Nodup) :
    dget (metadata.filter (fun kv => kv.2.isPrimitive)) k =
      (dget metadata k).bind (fun v => if v.isPrimitive then some v else none) := by
  induction metadata with
  | nil => rfl
  | cons e rest ih =>
    rw [List.map_cons, List.nodup_cons] at hnodup
    by_cases hk : e.1 = k
    · have hnone : dget (rest.filter (fun kv => kv.2.isPrimitive)) k = none := by
        refine dget_eq_none _ _ ?_
        intro e' he' hek
        refine hnodup.1 ?_
        rw [hk, ← hek]
        exact List.mem_map_of_mem Prod.fst (List.mem_of_mem_filter he')
      cases hprim : e.2.isPrimitive with
      | true => simp [List.filter_cons, hprim, dget, hk]
      | false => simp [List.filter_cons, hprim, dget, hk, hnone]
    · cases hprim : e.2.isPrimitive with
      | true => simp [List.filter_cons, hprim, dget, hk, ih hnodup.2]
      | false => simp [List.filter_cons, hprim, dget, hk, ih hnodup.2]

theorem split_into_chunks_get? (text : String) (metadata : List (String × PyVal)) (i : Nat) :
    (DocumentProcessor.split_into_chunks text metadata).get? i =
      ((split_text text).get? i).map
        (fun c =>
          { page_content := c,
            metadata :=
              dset (metadata.filter (fun kv => kv.2.isPrimitive)) "chunk_index" (.int i) }) := by
  unfold DocumentProcessor.split_into_chunks
  rw [List.get?_map, List.get?_enum]
  cases (split_text text).get? i with
  | none => rfl
  | some c => rfl

/-- Claim C6: every chunk produced by split_into_chunks carries its zero-based
sequence index under the chunk_index key, and its remaining metadata is
exactly the primitive-typed entries of the input metadata: a primitive entry
is kept with its value, a non-primitive entry is dropped. -/
theorem split_into_chunks_index_and_sanitized_metadata
    (text : String) (metadata : List (String × PyVal)) (k : String) (i : Nat) (doc : Document)
    (hnodup : (metadata.map Prod.fst).Nodup)
    (hk : k ≠ "chunk_index")
    (hget : (DocumentProcessor.split_into_chunks text metadata).get? i = some doc) :
    dget doc.metadata "chunk_index" = some (.int i) ∧
    dget doc.metadata k =
      (dget metadata k).bind (fun v => if v.isPrimitive then some v else none) ∧
    (split_text text).get? i = some doc.page_content := by
  rw [split_into_chunks_get? text metadata i] at hget
  cases hc : (split_text text).get? i with
  | none =>
    rw [hc] at hget
    cases hget
  | some c =>
    rw [hc] at hget
    simp only [Option.map_some'] at hget
    have hdoc := hget.symm
    injection hdoc with hdoc
    subst hdoc
    refine ⟨dget_dset_same _ _ _, ?_, ?_⟩
    · rw [dget_dset_other _ _ _ _ hk]
      exact dget_filter_primitive metadata k hnodup
    · rfl

/-- Witness for C6 at a concrete input: a three-entry metadata mapping with
one non-primitive entry, split of a short text. -/
theorem split_into_chunks_index_and_sanitized_metadata_witness :
    dget (Document.metadata
        { page_content := "hello",
          metadata := [("filename", PyVal.str "f.pdf"), ("pages", PyVal.int 3),
            ("chunk_index", PyVal.int 0)] }) "chunk_index" = some (PyVal.int 0) ∧
    dget (Document.metadata
        { page_content := "hello",
          metadata := [("filename", PyVal.str "f.pdf"), ("pages", PyVal.int 3),
            ("chunk_index", PyVal.int 0)] }) "pages" =
      (dget [("filename", PyVal.str "f.pdf"), ("pages", PyVal.int 3),
          ("blob", PyVal.pylist [])] "pages").bind
        (fun v => if v.isPrimitive then some v else none) ∧
    (split_text "hello").get? 0 =
      some (Document.page_content
        { page_content := "hello",
          metadata := [("filename", PyVal.str "f.pdf"), ("pages", PyVal.int 3),
            ("chunk_index", PyVal.int 0)] }) :=
  split_into_chunks_index_and_sanitized_metadata "hello"
    [("filename", PyVal.str "f.pdf"), ("pages", PyVal.int 3), ("blob", PyVal.pylist [])]
    "pages" 0
    { page_content := "hello",
      metadata := [("filename", PyVal.str "f.pdf"), ("pages", PyVal.int 3),
        ("chunk_index", PyVal.int 0)] }
    (by decide) (by decide) (by rfl)

theorem mapM_error_of_mem {α β : Type} (f : α → Except String β) (l : List α)
    (d : α) (hd : d ∈ l) (e : String) (he : f d = .error e) :
    ∃ e', l.mapM f = Except.error e' := by
  induction l with
  | nil => cases hd
  | cons a rest ih =>
    rw [List.mapM_cons]
    rcases List.mem_cons.mp hd with rfl | hmem
    · exact ⟨e, by rw [he]; rfl⟩
    · cases ha : f a with
      | error ea => exact ⟨ea, rfl⟩
      | ok b =>
        obtain ⟨e', he'⟩ := ih hmem
        refine ⟨e', ?_⟩
        rw [he']
        rfl

/-- Claim C3: the Vector Index's add operation has atomic-per-call
semantics: a successful call commits exactly the whole batch onto the
previously stored collection, and if embedding fails on any document of the
batch then the call reports the failure as an error and no new state is
produced, leaving the stored collection unchanged. -/
theorem add_documents_atomic (embed : String → Except String Emb)
    (s : ChromaClient) (documents : List Document) :
    (∀ s' ids, VectorStoreManager.add_documents embed s documents = .ok (s', ids) →
      ∃ stored, s.collection = some stored ∧ s'.collection = some (stored ++ documents)) ∧
    ((∃ d ∈ documents, ∃ e, embed d.page_content = .error e) →
      ∃ e', VectorStoreManager.add_documents embed s documents = .error e') := by
  constructor
  · intro s' ids hok
    unfold VectorStoreManager.add_documents chromaAddDocuments at hok
    cases hmap : documents.mapM (fun d => embed d.page_content) with
    | error e =>
      rw [hmap] at hok
      cases hok
    | ok embs =>
      rw [hmap] at hok
      cases hcoll : s.collection with
      | none =>
        rw [hcoll] at hok
        cases hok
      | some stored =>
        rw [hcoll] at hok
        refine ⟨stored, rfl, ?_⟩
        injection hok with h1
        injection h1 with h2
        rw [← h2]
  · rintro ⟨d, hd, e, he⟩
    obtain ⟨e', he'⟩ := mapM_error_of_mem (fun d => embed d.page_content) documents d hd e he
    refine ⟨e', ?_⟩
    unfold VectorStoreManager.add_documents chromaAddDocuments
    rw [he']

/-- Witness for C3: a two-document batch whose second document fails to
embed makes the add operation report an error. -/
theorem add_documents_atomic_witness :
    ∃ e', VectorStoreManager.add_documents
      (fun t => if t = "bad" then .error "embedding failed" else .ok ([] : List Int))
      { collection := some [] }
      [{ page_content := "good", metadata := [] }, { page_content := "bad", metadata := [] }] =
      .error e' :=
  (add_documents_atomic
      (fun t => if t = "bad" then .error "embedding failed" else .ok ([] : List Int))
      { collection := some [] }
      [{ page_content := "good", metadata := [] }, { page_content := "bad", metadata := [] }]).2
    ⟨{ page_content := "bad", metadata := [] },
      List.mem_cons_of_mem _ (List.mem_cons_self _ _), "embedding failed", rfl⟩

/-- Claim C4: the clear operation is idempotent: when the collection exists,
clearing succeeds, leaves the count at 0, clearing again also succeeds and
leaves the count at 0, and the resulting state is exactly the state of a
freshly created index. -/
theorem clear_collection_idempotent (s : ChromaClient) (docs : List Document)
    (h : s.collection = some docs) :
    ∃ s1 s2,
      VectorStoreManager.clear_collection s = .ok s1 ∧
      VectorStoreManager.get_collection_count s1 = 0 ∧
      VectorStoreManager.clear_collection s1 = .ok s2 ∧
      VectorStoreManager.get_collection_count s2 = 0 ∧
      s2 = chromaGetOrCreate { collection := none } := by
  refine ⟨{ collection := some [] }, { collection := some [] }, ?_, rfl, ?_, rfl, rfl⟩
  · unfold VectorStoreManager.clear_collection chromaDeleteCollection
    rw [h]
    rfl
  · rfl

/-- Witness for C4 at a one-document collection. -/
theorem clear_collection_idempotent_witness :
    ∃ s1 s2,
      VectorStoreManager.clear_collection
          { collection := some [{ page_content := "t", metadata := [] }] } = .ok s1 ∧
      VectorStoreManager.get_collection_count s1 = 0 ∧
      VectorStoreManager.clear_collection s1 = .ok s2 ∧
      VectorStoreManager.get_collection_count s2 = 0 ∧
      s2 = chromaGetOrCreate { collection := none } :=
  clear_collection_idempotent
    { collection := some [{ page_content := "t", metadata := [] }] }
    [{ page_content := "t", metadata := [] }] rfl

/-- Claim C5: searching a freshly cleared index returns an empty result, not
an error, for every query and every positive k. -/
theorem similarity_search_empty_index (sim : String → Document → Int)
    (s s' : ChromaClient) (query : String) (k : Nat)
    (hclear : VectorStoreManager.clear_collection s = .ok s')
    (hk : 0 < k) :
    VectorStoreManager.similarity_search sim s' query k = .ok [] := by
  have hs' : s' = { collection := some [] } := by
    unfold VectorStoreManager.clear_collection chromaDeleteCollection at hclear
    cases hcoll : s.collection with
    | none =>
      rw [hcoll] at hclear
      cases hclear
    | some docs =>
      rw [hcoll] at hclear
      injection hclear with h1
      exact h1.symm
  subst hs'
  show Except.ok (List.take k (sortBySim (sim query) [])) = Except.ok []
  rw [sortBySim, List.take_nil]

/-- Witness for C5: search with k = 5 on a just-cleared index. -/
theorem similarity_search_empty_index_witness :
    VectorStoreManager.similarity_search (fun _ _ => 0)
      { collection := some [] } "What tax liability was reported?" 5 = .ok [] :=
  similarity_search_empty_index (fun _ _ => 0)
    { collection := some [] } { collection := some [] }
    "What tax liability was reported?" 5 rfl (by decide)

/-- Claim C8: the count operation always returns an integer that is at least
0: the stored count when the collection is accessible, and 0 instead of an
exception when the backing-store access fails. -/
theorem get_collection_count_nonneg (s : ChromaClient) :
    0 ≤ VectorStoreManager.get_collection_count s ∧
    (∀ docs, s.collection = some docs →
      VectorStoreManager.get_collection_count s = (docs.length : Int)) ∧
    (s.collection = none → VectorStoreManager.get_collection_count s = 0) := by
  cases s with
  | mk coll =>
    cases coll with
    | none =>
      refine ⟨le_refl 0, ?_, fun _ => rfl⟩
      intro docs hdocs
      cases hdocs
    | some docs =>
      refine ⟨Int.natCast_nonneg _, ?_, ?_⟩
      · intro docs' hdocs'
        injection hdocs' with h1
        rw [VectorStoreManager.get_collection_count, h1]
      · intro hnone
        cases hnone

/-- Witness for C8 at a one-document collection. -/
theorem get_collection_count_nonneg_witness :
    0 ≤ VectorStoreManager.get_collection_count
        { collection := some [{ page_content := "t", metadata := [] }] } ∧
    VectorStoreManager.get_collection_count
        { collection := some [{ page_content := "t", metadata := [] }] } = 1 :=
  ⟨(get_collection_count_nonneg { collection := some [{ page_content := "t", metadata := [] }] }).1,
    (get_collection_count_nonneg
        { collection := some [{ page_content := "t", metadata := [] }] }).2.1
      [{ page_content := "t", metadata := [] }] rfl⟩

/-- Counterexample to claim C1 as stated: on a transport failure (a request
exception with description timeout) the query response carries the failure
description only inside the answer text; the response dictionary has no
raw_error key at all, so no raw_error field carries the description. -/
theorem query_dict_no_raw_error_field :
    failureMsg (ChainRun.reachedLLM [] (TransportOutcome.requestException "timeout")) =
      some "timeout" ∧
    dget (RAGEngine.query_dict "valid-key"
        (ChainRun.reachedLLM [] (TransportOutcome.requestException "timeout")))
      "raw_error" = none :=
  ⟨rfl, rfl⟩

/-- Claim C1 (amended): for every non-empty API key and every failing chain
run, RAGEngine.query returns (never raises) a response whose answer text is
one of the four error markers followed by the underlying failure
description, and whose dictionary has exactly the keys answer and sources
and in particular no raw_error field. -/
theorem query_error_answer_contract (key : String) (run : ChainRun) (m : String)
    (hkey : key ≠ "") (hfail : failureMsg run = some m) :
    (∃ p, p ∈ errorMarkers ∧ (RAGEngine.query key run).answer = p ++ m) ∧
    (RAGEngine.query_dict key run).map Prod.fst = ["answer", "sources"] ∧
    dget (RAGEngine.query_dict key run) "raw_error" = none := by
  refine ⟨?_, rfl, by simp [RAGEngine.query_dict, dget]⟩
  have hq : RAGEngine.query key run = RAGEngine.query_main run := by
    unfold RAGEngine.query
    rw [if_neg hkey]
  rw [hq]
  cases run with
  | preLLMFailure e =>
    injection hfail with hm
    subst hm
    exact ⟨"❌ Error: ", by simp [errorMarkers], rfl⟩
  | reachedLLM docs t =>
    cases t with
    | requestException e =>
      injection hfail with hm
      subst hm
      exact ⟨"Request failed: ", by simp [errorMarkers], rfl⟩
    | response status body parse =>
      by_cases hstatus : status = 200
      · subst hstatus
        cases parse with
        | ok content => simp [failureMsg] at hfail
        | error e =>
          have hm : e = m := by simpa [failureMsg] using hfail
          subst hm
          refine ⟨"Invalid response: ", by simp [errorMarkers], ?_⟩
          simp [RAGEngine.query_main, qa_chain, GroqHTTP.call]
      · have hm : toString status ++ " - " ++ body = m := by
          simpa [failureMsg, hstatus] using hfail
        subst hm
        refine ⟨"API Error: ", by simp [errorMarkers], ?_⟩
        simp [RAGEngine.query_main, qa_chain, GroqHTTP.call, hstatus, String.append_assoc]

/-- Witness for C1 (amended) at a request exception with a non-empty key. -/
theorem query_error_answer_contract_witness :
    (∃ p, p ∈ errorMarkers ∧
      (RAGEngine.query "valid-key"
          (ChainRun.reachedLLM [] (TransportOutcome.requestException "timeout"))).answer =
        p ++ "timeout") ∧
    (RAGEngine.query_dict "valid-key"
        (ChainRun.reachedLLM [] (TransportOutcome.requestException "timeout"))).map Prod.fst =
      ["answer", "sources"] ∧
    dget (RAGEngine.query_dict "valid-key"
        (ChainRun.reachedLLM [] (TransportOutcome.requestException "timeout")))
      "raw_error" = none :=
  query_error_answer_contract "valid-key"
    (ChainRun.reachedLLM [] (TransportOutcome.requestException "timeout"))
    "timeout" (by decide) rfl

/-- Claim C10: constructing the RAGEngine with an empty key raises
ValueError, and for every successfully constructed engine the key is
non-empty, so the key-missing early-return branch of query is never taken:
query always runs its main body. -/
theorem rag_engine_key_invariant (key : String) (rest : Except String Unit) :
    (RAGEngine.construct "" rest = .error "GROQ_API_KEY not configured in .env file") ∧
    (RAGEngine.construct key rest = .ok () →
      key ≠ "" ∧ ∀ run, RAGEngine.query key run = RAGEngine.query_main run) := by
  constructor
  · rfl
  · intro hok
    have hkey : key ≠ "" := by
      intro hempty
      rw [hempty] at hok
      cases hok
    refine ⟨hkey, ?_⟩
    intro run
    unfold RAGEngine.query
    rw [if_neg hkey]

/-- Witness for C10 with a concrete non-empty key and a concrete run, the
successful-construction hypothesis discharged. -/
theorem rag_engine_key_invariant_witness :
    (RAGEngine.construct "" (Except.ok ()) =
      .error "GROQ_API_KEY not configured in .env file") ∧
    "valid-key" ≠ "" ∧
    RAGEngine.query "valid-key" (ChainRun.preLLMFailure "boom") =
      RAGEngine.query_main (ChainRun.preLLMFailure "boom") :=
  ⟨(rag_engine_key_invariant "valid-key" (Except.ok ())).1,
    ((rag_engine_key_invariant "valid-key" (Except.ok ())).2 rfl).1,
    ((rag_engine_key_invariant "valid-key" (Except.ok ())).2 rfl).2
      (ChainRun.preLLMFailure "boom")⟩

theorem section_loop_eq (rag : String → QueryResponse) (qs : List String) (acc : List Slot) :
    section_loop rag qs acc =
      acc ++ qs.map (fun q =>
        { question := q, answer := (rag q).answer, sources := (rag q).sources }) := by
  induction qs generalizing acc with
  | nil => simp [section_loop]
  | cons q rest ih =>
    simp only [section_loop, List.map_cons]
    rw [ih, List.append_assoc]
    rfl

theorem analyze_loop_eq (rag : String → QueryResponse)
    (sections : List (String × List String)) (report : List (String × List Slot)) :
    analyze_loop rag sections report =
      report ++ sections.map (fun sq => (sq.1, section_loop rag sq.2 [])) := by
  induction sections generalizing report with
  | nil => simp [analyze_loop]
  | cons sq rest ih =>
    simp only [analyze_loop, List.map_cons]
    rw [ih, List.append_assoc]
    rfl

theorem foldl_append_sjoin {α : Type} (f : α → String) (l : List α) (init : String) :
    l.foldl (fun r x => r ++ f x) init = init ++ sjoin (l.map f) := by
  induction l generalizing init with
  | nil =>
    simp only [List.foldl_nil, List.map_nil, sjoin]
    rw [String.append_empty]
  | cons a rest ih =>
    rw [List.foldl_cons, ih, List.map_cons]
    show (init ++ f a) ++ sjoin (rest.map f) = init ++ (f a ++ sjoin (rest.map f))
    rw [String.append_assoc]

theorem generate_eq_spec_render (analysis : List (String × List Slot)) :
    TaxAnalyzer.generate_summary_report analysis = spec_render analysis := by
  have hstep : ∀ (report : String) (st : String × String),
      (match dget analysis st.1 with
        | some items =>
          items.foldl (fun r item => r ++ render_item item)
            (report ++ "\n## " ++ st.2 ++ "\n\n")
        | none => report ++ "\n## " ++ st.2 ++ "\n\n") ++ "---\n" =
        report ++ spec_render_section analysis st := by
    intro report st
    unfold spec_render_section
    cases hdg : dget analysis st.1 with
    | none =>
      simp only [Option.getD_none, List.map_nil, sjoin]
      rw [String.append_empty]
      simp [String.append_assoc]
    | some items =>
      simp only [Option.getD_some]
      rw [foldl_append_sjoin]
      simp [String.append_assoc]
  unfold TaxAnalyzer.generate_summary_report spec_render
  refine Eq.trans
    (List.foldl_ext _ (fun report st => report ++ spec_render_section analysis st) _
      (fun r st _ => hstep r st)) ?_
  exact foldl_append_sjoin (spec_render_section analysis) section_titles _

/-- Claim C9: the render operation is the deterministic serialization the
specification describes: the top-level title, then one second-level heading
per canonical section in fixed order, each followed by that section's
question/answer items and a horizontal-rule marker, where an item shows at
most 2 source excerpts and every shown excerpt is cut to at most 150
characters. -/
theorem generate_summary_report_structure (analysis : List (String × List Slot)) :
    TaxAnalyzer.generate_summary_report analysis = spec_render analysis ∧
    (∀ item : Slot, (item.sources.take 2).length ≤ 2) ∧
    (∀ e : SourceEntry, (pytake e.content 150).length ≤ 150) := by
  refine ⟨generate_eq_spec_render analysis, ?_, ?_⟩
  · intro item
    exact List.length_take_le 2 item.sources
  · intro e
    show (e.content.data.take 150).length ≤ 150
    exact List.length_take_le 150 e.content.data

/-- Claim C2: the analysis loop never aborts: for every section battery and
every per-question chain behaviour, the report contains exactly one slot per
question, in section order then question order, and each slot carries
exactly the answer and sources of its own question's query response (so one
question's failure cannot affect any other slot); moreover rendering the
resulting report succeeds, producing the serialization the specification
describes. -/
theorem analyze_document_partial_failure_isolation
    (key : String) (oracle : String → ChainRun) (sections : List (String × List String)) :
    analyze_loop (fun q => RAGEngine.query key (oracle q)) sections [] =
      sections.map (fun sq => (sq.1, sq.2.map (fun q =>
        { question := q,
          answer := (RAGEngine.query key (oracle q)).answer,
          sources := (RAGEngine.query key (oracle q)).sources }))) ∧
    TaxAnalyzer.generate_summary_report (TaxAnalyzer.analyze_document key oracle) =
      spec_render (TaxAnalyzer.analyze_document key oracle) := by
  constructor
  · rw [analyze_loop_eq, List.nil_append]
    apply List.map_congr_left
    intro sq _
    rw [section_loop_eq, List.nil_append]
  · exact generate_eq_spec_render _

end MergeRiskAI
